import Mathlib

/-!
Verification of the Pumpkin plugin-API core against its specification.

The development shallowly embeds the tick-driven task scheduler
(src/pumpkin/src/plugin/api/task/mod.rs), the run_task_later expansion
(src/pumpkin/src/plugin/api/task/macros.rs), the send_cancellable expansion
(src/pumpkin-macros/src/lib.rs), the NamespacedKey constructor
(src/pumpkin/src/plugin/api/persistence/mod.rs) and the SignChangeEvent
line accessors (src/pumpkin/src/plugin/api/events/block/sign_change.rs).

Machine integers: every u64 computation whose overflow behaviour matters is
modelled on Nat with an explicit reduction modulo 2 ^ 64, matching the
wrapping semantics of release-mode Rust arithmetic.

Handlers (`Arc<dyn TaskHandler>`) are represented by a numeric identity; the
shared `Arc<AtomicBool>` cancel flag of a pending task is represented by the
boolean value the scheduler observes for that task.  Work handed to the
async runtime by `tokio::spawn` is recorded as an `Effect` in the order the
scheduler spawns it; `tick()` itself never awaits any of that work.
-/

namespace Pumpkin

/-- Modulus of Rust u64 arithmetic: additions such as
`current_tick + delay_ticks` wrap modulo `2 ^ 64` in release builds. -/
def U64 : Nat := 2 ^ 64

/-- Embedding of `enum ScheduledTaskType` from
src/pumpkin/src/plugin/api/task/mod.rs: a one-shot task due at
`run_at_tick`, or a repeating task with its interval and next due tick. -/
inductive ScheduledTaskType where
  | Later (run_at_tick : Nat)
  | Timer (interval_ticks : Nat) (next_run_tick : Nat)
deriving DecidableEq, Repr

/-- Embedding of `struct ScheduledTask`: the task kind, the handler
(`Arc<dyn TaskHandler>`, represented by its identity), and the value of the
shared `Arc<AtomicBool>` cancel flag as observed by the scheduler. -/
structure ScheduledTask where
  task_type : ScheduledTaskType
  handler : Nat
  cancel_flag : Bool
deriving DecidableEq, Repr

/-- Embedding of `struct TaskScheduler`: the pending task vector (behind a
`Mutex`) and the `AtomicU64` tick counter. -/
structure TaskScheduler where
  tasks : List ScheduledTask
  tick_count : Nat
deriving DecidableEq, Repr

/-- Work spawned onto the tokio runtime by the scheduler:
`tokio::spawn(handler.run())` or `tokio::spawn(handler.cancel())` /
an awaited `handler.cancel()`, identified by the handler it invokes. -/
inductive Effect where
  | spawnRun (handler : Nat)
  | spawnCancel (handler : Nat)
deriving DecidableEq, Repr

/-- Embedding of `TaskScheduler::new`. -/
def TaskScheduler.new : TaskScheduler := ⟨[], 0⟩

/-- Embedding of `TaskScheduler::schedule_once`: reads the current tick,
pushes a `Later` task due at `current_tick + delay_ticks` (u64 wrapping
addition) with a fresh (false) cancel flag.  The `Arc<AtomicBool>` the Rust
function returns is the pushed task's `cancel_flag`. -/
def TaskScheduler.schedule_once (s : TaskScheduler) (delay_ticks : Nat)
    (handler : Nat) : TaskScheduler :=
  { s with
    tasks := s.tasks ++
      [⟨ScheduledTaskType.Later ((s.tick_count + delay_ticks) % U64),
        handler, false⟩] }

/-- Embedding of `TaskScheduler::schedule_repeating`: reads the current
tick, pushes a `Timer` task with `next_run_tick = current_tick +
interval_ticks` (u64 wrapping addition) and a fresh cancel flag.  The
function performs no validation of `interval_ticks`. -/
def TaskScheduler.schedule_repeating (s : TaskScheduler) (interval_ticks : Nat)
    (handler : Nat) : TaskScheduler :=
  { s with
    tasks := s.tasks ++
      [⟨ScheduledTaskType.Timer interval_ticks
          ((s.tick_count + interval_ticks) % U64),
        handler, false⟩] }

/-- Body of the `retain_mut` closure inside `TaskScheduler::tick`, for one
task at the already incremented `current_tick`: returns the retained task
(if any) and the work spawned for this task.  A set cancel flag removes the
task and spawns `handler.cancel()`; a due `Later` task is removed and its
`handler.run()` spawned; a due `Timer` task is kept with `next_run_tick`
rewritten to `current_tick + interval_ticks` (u64 wrapping) and its
`handler.run()` spawned. -/
def tickTask (current_tick : Nat) (task : ScheduledTask) :
    Option ScheduledTask × List Effect :=
  if task.cancel_flag then
    (none, [Effect.spawnCancel task.handler])
  else
    match task.task_type with
    | ScheduledTaskType.Later run_at_tick =>
        if run_at_tick ≤ current_tick then
          (none, [Effect.spawnRun task.handler])
        else
          (some task, [])
    | ScheduledTaskType.Timer interval_ticks next_run_tick =>
        if next_run_tick ≤ current_tick then
          (some { task with
                  task_type := ScheduledTaskType.Timer interval_ticks
                    ((current_tick + interval_ticks) % U64) },
           [Effect.spawnRun task.handler])
        else
          (some task, [])

/-- Embedding of `TaskScheduler::tick`: `current_tick =
fetch_add(1) + 1` (wrapping), then `retain_mut` over the task vector with
the `tickTask` closure.  Returns the new scheduler state and the list of
spawned work, in task order. -/
def TaskScheduler.tick (s : TaskScheduler) : TaskScheduler × List Effect :=
  (⟨s.tasks.filterMap (fun t => (tickTask ((s.tick_count + 1) % U64) t).1),
    (s.tick_count + 1) % U64⟩,
   s.tasks.flatMap (fun t => (tickTask ((s.tick_count + 1) % U64) t).2))

/-- State of the scheduler after `n` calls to `tick()`. -/
def TaskScheduler.tickN (s : TaskScheduler) : Nat → TaskScheduler
  | 0 => s
  | n + 1 => (TaskScheduler.tick (TaskScheduler.tickN s n)).1

/-- Work spawned by the `(n + 1)`-st call to `tick()` after state `s`. -/
def TaskScheduler.effectsAt (s : TaskScheduler) (n : Nat) : List Effect :=
  (TaskScheduler.tick (TaskScheduler.tickN s n)).2

/-- Embedding of `ScheduledHandle::cancel` for a handle whose task is still
in the pending set at index `idx` (the shared `Arc<AtomicBool>` is the flag
of that task): stores true into the shared flag, then invokes (awaits) the
handler's `cancel()` once, directly. -/
def TaskScheduler.scheduledHandle_cancel (s : TaskScheduler) (idx : Nat) :
    TaskScheduler × List Effect :=
  match s.tasks[idx]? with
  | some t =>
      ({ s with tasks := s.tasks.set idx { t with cancel_flag := true } },
       [Effect.spawnCancel t.handler])
  | none => (s, [])

/-- Future stored inside the `InlineOnceHandler` built by the
run_task_later expansion: either the empty `async {}` block, or a future
that runs a user body (identified by a number). -/
inductive Fut where
  | empty
  | user (body : Nat)
deriving DecidableEq, Repr

/-- User bodies executed when a stored future is awaited. -/
def futBodies : Fut → List Nat
  | Fut.empty => []
  | Fut.user b => [b]

/-- Result of expanding run_task_later at a call site: the user bodies that
were executed during the expansion itself (before returning to the caller),
the future stored in the `InlineOnceHandler`, and the scheduler state after
the `schedule_once` call the expansion performs. -/
structure RunTaskLaterResult where
  bodies_run_at_call : List Nat
  stored_future : Fut
  sched : TaskScheduler
deriving Repr

/-- Embedding of the active `run_task_later` expansion from
src/pumpkin/src/plugin/api/task/macros.rs.  The expansion evaluates
`match async { $body }.await { _ => Box::pin(async {}) }`: it awaits the
user body right there at the call site, discards its value, and stores the
empty future `async {}` in the handler; then it calls
`schedule_once(delay_ticks, handler)`. -/
def run_task_later (s : TaskScheduler) (delay_ticks : Nat) (body : Nat)
    (handlerId : Nat) : RunTaskLaterResult :=
  { bodies_run_at_call := [body]
  , stored_future := Fut.empty
  , sched := s.schedule_once delay_ticks handlerId }

/-- Embedding of `InlineOnceHandler::run`: if the handler's own cancel flag
is set, return immediately; otherwise take the stored future (leaving
`none`) and await it, executing its user bodies. -/
def inlineOnceHandler_run (cancel_flag : Bool) (future : Option Fut) :
    List Nat × Option Fut :=
  if cancel_flag then
    ([], future)
  else
    match future with
    | some f => (futBodies f, none)
    | none => ([], none)

/-- Which labelled blocks are present at a send_cancellable call site: the
event expression alone, an after block, a cancelled block, or both. -/
inductive CancellableBlocks where
  | eventOnly
  | afterOnly
  | cancelledOnly
  | both
deriving DecidableEq, Repr

/-- Which guarded blocks the expanded code executes after `fire` returns. -/
structure CancellableExpansion where
  runs_after : Bool
  runs_cancelled : Bool
deriving DecidableEq, Repr

/-- Embedding of the four generated branches of the send_cancellable
expansion (src/pumpkin-macros/src/lib.rs): after `fire` returns an event
whose final cancelled field is `cancelled`, the generated code is
`if !event.cancelled { after } else { cancelled }` when both blocks are
given, `if !event.cancelled { after }` with only an after block,
`if event.cancelled { cancelled }` with only a cancelled block, and nothing
beyond the `fire` call otherwise. -/
def send_cancellable (blocks : CancellableBlocks) (cancelled : Bool) :
    CancellableExpansion :=
  match blocks with
  | CancellableBlocks.both =>
      if !cancelled then ⟨true, false⟩ else ⟨false, true⟩
  | CancellableBlocks.afterOnly =>
      if !cancelled then ⟨true, false⟩ else ⟨false, false⟩
  | CancellableBlocks.cancelledOnly =>
      if cancelled then ⟨false, true⟩ else ⟨false, false⟩
  | CancellableBlocks.eventOnly => ⟨false, false⟩

/-- Whether an after block is present at the call site. -/
def CancellableBlocks.hasAfter : CancellableBlocks → Bool
  | CancellableBlocks.both => true
  | CancellableBlocks.afterOnly => true
  | _ => false

/-- Whether a cancelled block is present at the call site. -/
def CancellableBlocks.hasCancelled : CancellableBlocks → Bool
  | CancellableBlocks.both => true
  | CancellableBlocks.cancelledOnly => true
  | _ => false

/-- Embedding of `char::is_ascii`: the code point is at most 0x7F. -/
def char_is_ascii (c : Char) : Bool := c.toNat ≤ 127

/-- Embedding of `str::is_ascii`: every character is ASCII. -/
def str_is_ascii (s : List Char) : Bool := s.all char_is_ascii

/-- Embedding of ASCII lowercasing of one character: an ASCII uppercase
letter is shifted by 32, any other character is unchanged. -/
def char_to_ascii_lowercase (c : Char) : Char :=
  if 65 ≤ c.toNat && c.toNat ≤ 90 then Char.ofNat (c.toNat + 32) else c

/-- Embedding of `str::to_ascii_lowercase`. -/
def str_to_ascii_lowercase (s : List Char) : List Char :=
  s.map char_to_ascii_lowercase

/-- Embedding of `struct NamespacedKey`
(src/pumpkin/src/plugin/api/persistence/mod.rs); `namespace` is a reserved
word in Lean, so the field is named `ns`. -/
structure NamespacedKey where
  ns : List Char
  key : List Char
deriving DecidableEq, Repr

/-- Embedding of `enum NamespacedKeyError`. -/
inductive NamespacedKeyError where
  | NonAsciiNamespace
  | NonAsciiKey
deriving DecidableEq, Repr

/-- Embedding of `NamespacedKey::new`: rejects a non-ASCII namespace first,
then a non-ASCII key, and otherwise stores the ASCII-lowercased namespace
and key. -/
def NamespacedKey.new (ns key : List Char) :
    Except NamespacedKeyError NamespacedKey :=
  if !str_is_ascii ns then
    Except.error NamespacedKeyError.NonAsciiNamespace
  else if !str_is_ascii key then
    Except.error NamespacedKeyError.NonAsciiKey
  else
    Except.ok ⟨str_to_ascii_lowercase ns, str_to_ascii_lowercase key⟩

/-- Embedding of `enum Side`
(src/pumpkin/src/plugin/api/events/block/sign_change.rs). -/
inductive Side where
  | Front
  | Back
deriving DecidableEq, Repr

/-- Embedding of `struct SignChangeEvent`: the player is represented by an
identity, `content` is the line vector, and `cancelled` is the field added
by the cancellable attribute expansion. -/
structure SignChangeEvent where
  player : Nat
  content : List String
  side : Side
  cancelled : Bool
deriving DecidableEq, Repr

/-- Embedding of `SignChangeEvent::new`. -/
def SignChangeEvent.new (player : Nat) (content : List String) (side : Side) :
    SignChangeEvent :=
  ⟨player, content, side, false⟩

/-- Embedding of `SignChangeEvent::lines`: a copy of the line vector. -/
def SignChangeEvent.lines (e : SignChangeEvent) : List String := e.content

/-- Embedding of `SignChangeEvent::line`: `self.content.get(index).unwrap()`.
The out-of-bounds panic of `unwrap()` is modelled as `none`. -/
def SignChangeEvent.line (e : SignChangeEvent) (index : Nat) : Option String :=
  e.content[index]?

/-- Embedding of `SignChangeEvent::set_line`:
`self.content.insert(index, line)`, which shifts the elements at or after
`index` one position later (`Vec::insert`; for `index ≤ len`, which is the
only in-bounds use, `List.insertIdx` agrees with it). -/
def SignChangeEvent.set_line (e : SignChangeEvent) (index : Nat)
    (line : String) : SignChangeEvent :=
  { e with content := e.content.insertIdx index line }

/-- Tick counter after `n` increments of the wrapping counter. -/
def tickCountN (t : Nat) : Nat → Nat
  | 0 => t
  | n + 1 => (tickCountN t n + 1) % U64

theorem tickN_tick_count (s : TaskScheduler) (n : Nat) :
    (s.tickN n).tick_count = tickCountN s.tick_count n := by
  induction n with
  | zero => rfl
  | succ n ih =>
      show (TaskScheduler.tick (s.tickN n)).1.tick_count = _
      rw [TaskScheduler.tick, tickCountN, ih]

theorem tickCountN_no_wrap (t n : Nat) (h : t + n < U64) :
    tickCountN t n = t + n := by
  induction n with
  | zero => rfl
  | succ n ih =>
      rw [tickCountN, ih (by omega)]
      exact Nat.mod_eq_of_lt (by omega)

theorem tickN_tick_count_mk (l : List ScheduledTask) (t n : Nat) :
    (TaskScheduler.tickN ⟨l, t⟩ n).tick_count = tickCountN t n :=
  tickN_tick_count ⟨l, t⟩ n

theorem tick_fst_tasks (s : TaskScheduler) :
    (s.tick).1.tasks
      = s.tasks.filterMap
          (fun tk => (tickTask ((s.tick_count + 1) % U64) tk).1) := rfl

theorem tick_snd (s : TaskScheduler) :
    (s.tick).2
      = s.tasks.flatMap
          (fun tk => (tickTask ((s.tick_count + 1) % U64) tk).2) := rfl

theorem tickN_tasks_append (l₁ l₂ : List ScheduledTask) (t n : Nat) :
    (TaskScheduler.tickN ⟨l₁ ++ l₂, t⟩ n).tasks
      = (TaskScheduler.tickN ⟨l₁, t⟩ n).tasks
          ++ (TaskScheduler.tickN ⟨l₂, t⟩ n).tasks := by
  induction n with
  | zero => rfl
  | succ n ih =>
      show (TaskScheduler.tick (TaskScheduler.tickN ⟨l₁ ++ l₂, t⟩ n)).1.tasks
        = (TaskScheduler.tick (TaskScheduler.tickN ⟨l₁, t⟩ n)).1.tasks
            ++ (TaskScheduler.tick (TaskScheduler.tickN ⟨l₂, t⟩ n)).1.tasks
      rw [tick_fst_tasks (TaskScheduler.tickN ⟨l₁ ++ l₂, t⟩ n),
          tick_fst_tasks (TaskScheduler.tickN ⟨l₁, t⟩ n),
          tick_fst_tasks (TaskScheduler.tickN ⟨l₂, t⟩ n),
          tickN_tick_count_mk (l₁ ++ l₂) t n, tickN_tick_count_mk l₁ t n,
          tickN_tick_count_mk l₂ t n, ih, List.filterMap_append]

theorem effectsAt_append (l₁ l₂ : List ScheduledTask) (t n : Nat) :
    TaskScheduler.effectsAt ⟨l₁ ++ l₂, t⟩ n
      = TaskScheduler.effectsAt ⟨l₁, t⟩ n
          ++ TaskScheduler.effectsAt ⟨l₂, t⟩ n := by
  show (TaskScheduler.tick (TaskScheduler.tickN ⟨l₁ ++ l₂, t⟩ n)).2
    = (TaskScheduler.tick (TaskScheduler.tickN ⟨l₁, t⟩ n)).2
        ++ (TaskScheduler.tick (TaskScheduler.tickN ⟨l₂, t⟩ n)).2
  rw [tick_snd (TaskScheduler.tickN ⟨l₁ ++ l₂, t⟩ n),
      tick_snd (TaskScheduler.tickN ⟨l₁, t⟩ n),
      tick_snd (TaskScheduler.tickN ⟨l₂, t⟩ n),
      tickN_tick_count_mk (l₁ ++ l₂) t n, tickN_tick_count_mk l₁ t n,
      tickN_tick_count_mk l₂ t n, tickN_tasks_append, List.flatMap_append]

theorem tickTask_effect_mem (c : Nat) (t : ScheduledTask) (e : Effect)
    (h : e ∈ (tickTask c t).2) :
    e = Effect.spawnRun t.handler ∨ e = Effect.spawnCancel t.handler := by
  rw [tickTask] at h
  split at h
  · simp at h
    simp [h]
  · split at h
    · split at h <;> simp_all
    · split at h <;> simp_all

theorem tickTask_handler_eq (c : Nat) (t t' : ScheduledTask)
    (h : (tickTask c t).1 = some t') : t'.handler = t.handler := by
  rw [tickTask] at h
  split at h
  · exact Option.noConfusion h
  · split at h
    · split at h
      · exact Option.noConfusion h
      · cases Option.some.inj h
        rfl
    · split at h
      · cases Option.some.inj h
        rfl
      · cases Option.some.inj h
        rfl

theorem tickTask_cancelled (c : Nat) (t : ScheduledTask)
    (h : t.cancel_flag = true) :
    tickTask c t = (none, [Effect.spawnCancel t.handler]) := by
  rw [tickTask, h]
  rfl

/-- Handler identity `h` does not occur among the tasks of `l`. -/
def freshHandler (h : Nat) (l : List ScheduledTask) : Prop :=
  ∀ t ∈ l, t.handler ≠ h

theorem fresh_tick (s : TaskScheduler) (h : Nat)
    (hf : freshHandler h s.tasks) :
    freshHandler h (s.tick).1.tasks
      ∧ Effect.spawnRun h ∉ (s.tick).2
      ∧ Effect.spawnCancel h ∉ (s.tick).2 := by
  refine ⟨?_, ?_, ?_⟩
  · intro t' ht'
    rw [TaskScheduler.tick] at ht'
    simp only [List.mem_filterMap] at ht'
    obtain ⟨t, ht, htt⟩ := ht'
    rw [tickTask_handler_eq _ _ _ htt]
    exact hf t ht
  · intro hmem
    rw [TaskScheduler.tick] at hmem
    simp only [List.mem_flatMap] at hmem
    obtain ⟨t, ht, hmem⟩ := hmem
    rcases tickTask_effect_mem _ _ _ hmem with he | he
    · exact hf t ht (Effect.spawnRun.inj he.symm)
    · exact Effect.noConfusion he
  · intro hmem
    rw [TaskScheduler.tick] at hmem
    simp only [List.mem_flatMap] at hmem
    obtain ⟨t, ht, hmem⟩ := hmem
    rcases tickTask_effect_mem _ _ _ hmem with he | he
    · exact Effect.noConfusion he
    · exact hf t ht (Effect.spawnCancel.inj he.symm)

theorem fresh_tickN (s : TaskScheduler) (h n : Nat)
    (hf : freshHandler h s.tasks) :
    freshHandler h (s.tickN n).tasks := by
  induction n with
  | zero => exact hf
  | succ n ih => exact (fresh_tick (s.tickN n) h ih).1

theorem fresh_effectsAt (s : TaskScheduler) (h n : Nat)
    (hf : freshHandler h s.tasks) :
    Effect.spawnRun h ∉ s.effectsAt n
      ∧ Effect.spawnCancel h ∉ s.effectsAt n := by
  have := fresh_tick (s.tickN n) h (fresh_tickN s h n hf)
  exact ⟨this.2.1, this.2.2⟩

theorem timer_due_iff (n i : Nat) (hi : 0 < i) :
    (i * (n / i) + i ≤ n + 1) ↔ i ∣ (n + 1) := by
  have hmod := Nat.mod_lt n hi
  have hdm := Nat.div_add_mod n i
  constructor
  · intro hle
    exact ⟨n / i + 1, by rw [Nat.mul_add, Nat.mul_one]; omega⟩
  · intro hdvd
    have hq : (n + 1) / i = n / i + 1 := by
      rw [Nat.succ_div, if_pos hdvd]
    have h2 : i * ((n + 1) / i) = n + 1 := Nat.mul_div_cancel' hdvd
    rw [hq, Nat.mul_add, Nat.mul_one] at h2
    omega

theorem timer_singleton (t0 i hId : Nat) (hi : 0 < i) :
    ∀ n, t0 + n + i < U64 →
      TaskScheduler.tickN
          ⟨[⟨ScheduledTaskType.Timer i (t0 + i), hId, false⟩], t0⟩ n
        = ⟨[⟨ScheduledTaskType.Timer i (t0 + i * (n / i) + i), hId, false⟩],
           t0 + n⟩ := by
  intro n
  induction n with
  | zero =>
      intro hov
      simp [TaskScheduler.tickN, Nat.zero_div]
  | succ n ih =>
      intro hov
      have hov' : t0 + n + i < U64 := by omega
      have hcur : (t0 + n + 1) % U64 = t0 + n + 1 := Nat.mod_eq_of_lt (by omega)
      show (TaskScheduler.tick _).1 = _
      rw [ih hov']
      by_cases hdvd : i ∣ (n + 1)
      · have hdue : t0 + i * (n / i) + i ≤ t0 + n + 1 := by
          have := (timer_due_iff n i hi).2 hdvd
          omega
        have hq : (n + 1) / i = n / i + 1 := by
          rw [Nat.succ_div, if_pos hdvd]
        have hval : n + 1 = i * (n / i) + i := by
          have h2 : i * ((n + 1) / i) = n + 1 := Nat.mul_div_cancel' hdvd
          rw [hq, Nat.mul_add, Nat.mul_one] at h2
          omega
        have hnext : (t0 + n + 1 + i) % U64 = t0 + n + 1 + i :=
          Nat.mod_eq_of_lt (by omega)
        simp only [TaskScheduler.tick, List.filterMap, tickTask, hcur, hq]
        simp [hdue, hnext, hval, Nat.mul_add, Nat.mul_one]
        omega
      · have hndue : ¬(t0 + i * (n / i) + i ≤ t0 + n + 1) := by
          intro hle
          exact hdvd ((timer_due_iff n i hi).1 (by omega))
        have hq : (n + 1) / i = n / i := by
          rw [Nat.succ_div, if_neg hdvd]
          omega
        simp only [TaskScheduler.tick, List.filterMap, tickTask, hcur, hq]
        simp [hndue]
        omega

theorem timer_singleton_effects (t0 i hId : Nat) (hi : 0 < i) :
    ∀ n, t0 + n + i < U64 →
      TaskScheduler.effectsAt
          ⟨[⟨ScheduledTaskType.Timer i (t0 + i), hId, false⟩], t0⟩ n
        = if i ∣ (n + 1) then [Effect.spawnRun hId] else [] := by
  intro n hov
  show (TaskScheduler.tick _).2 = _
  rw [timer_singleton t0 i hId hi n hov]
  have hcur : (t0 + n + 1) % U64 = t0 + n + 1 := Nat.mod_eq_of_lt (by omega)
  by_cases hdvd : i ∣ (n + 1)
  · have hdue : t0 + i * (n / i) + i ≤ t0 + n + 1 := by
      have := (timer_due_iff n i hi).2 hdvd
      omega
    simp [TaskScheduler.tick, tickTask, hcur, hdue, hdvd]
  · have hndue : ¬(t0 + i * (n / i) + i ≤ t0 + n + 1) := by
      intro hle
      exact hdvd ((timer_due_iff n i hi).1 (by omega))
    simp [TaskScheduler.tick, tickTask, hcur, hndue, hdvd]

theorem timer_zero_singleton (t0 hId : Nat) :
    ∀ n, t0 + n < U64 →
      TaskScheduler.tickN ⟨[⟨ScheduledTaskType.Timer 0 t0, hId, false⟩], t0⟩ n
        = ⟨[⟨ScheduledTaskType.Timer 0 (t0 + n), hId, false⟩], t0 + n⟩ := by
  intro n
  induction n with
  | zero =>
      intro hov
      rfl
  | succ n ih =>
      intro hov
      have hcur : (t0 + n + 1) % U64 = t0 + n + 1 := Nat.mod_eq_of_lt (by omega)
      show (TaskScheduler.tick _).1 = _
      rw [ih (by omega)]
      simp [TaskScheduler.tick, tickTask, hcur]
      omega

theorem timer_zero_singleton_effects (t0 hId : Nat) :
    ∀ n, t0 + n + 1 < U64 →
      TaskScheduler.effectsAt ⟨[⟨ScheduledTaskType.Timer 0 t0, hId, false⟩], t0⟩ n
        = [Effect.spawnRun hId] := by
  intro n hov
  show (TaskScheduler.tick _).2 = _
  rw [timer_zero_singleton t0 hId n (by omega)]
  have hcur : (t0 + n + 1) % U64 = t0 + n + 1 := Nat.mod_eq_of_lt (by omega)
  simp [TaskScheduler.tick, tickTask, hcur]

/-- C1 (code-bug evidence, at the failing input run_task_later with
delay_ticks = 5, body 3, handler 7, from a fresh scheduler): the expansion
runs the user body synchronously at the scheduling call (before any tick),
the stored future is empty so the dispatched InlineOnceHandler::run
executes no user body, and the handler itself is spawned by the 5th tick()
call and by no earlier one.  The claim says the work runs on the first tick
where the counter reaches t + d and never at the scheduling call; the code
does the opposite for run_task_later. -/
theorem C1_run_task_later_body_runs_at_call :
    (run_task_later ⟨[], 0⟩ 5 3 7).bodies_run_at_call = [3]
      ∧ (inlineOnceHandler_run false
            (some (run_task_later ⟨[], 0⟩ 5 3 7).stored_future)).1 = []
      ∧ Effect.spawnRun 7 ∉ (run_task_later ⟨[], 0⟩ 5 3 7).sched.effectsAt 0
      ∧ Effect.spawnRun 7 ∉ (run_task_later ⟨[], 0⟩ 5 3 7).sched.effectsAt 1
      ∧ Effect.spawnRun 7 ∉ (run_task_later ⟨[], 0⟩ 5 3 7).sched.effectsAt 2
      ∧ Effect.spawnRun 7 ∉ (run_task_later ⟨[], 0⟩ 5 3 7).sched.effectsAt 3
      ∧ Effect.spawnRun 7 ∈ (run_task_later ⟨[], 0⟩ 5 3 7).sched.effectsAt 4 := by
  refine ⟨rfl, rfl, ?_, ?_, ?_, ?_, ?_⟩ <;> decide

/-- C3 counterexample: a schedule_repeating call with interval_ticks = 0
does not fail and does insert a task into the pending set — from a fresh
scheduler with handler 7 it returns normally (its return type has no error
channel at all) and the pending set gains the zero-interval task. -/
theorem C3_counterexample :
    (TaskScheduler.schedule_repeating ⟨[], 0⟩ 0 7).tasks
      = [⟨ScheduledTaskType.Timer 0 0, 7, false⟩] := rfl

/-- C3 amended: schedule_repeating performs no validation of the interval.
A call with interval_ticks = 0 is accepted: the task is inserted into the
pending set with next_run_tick = current_tick, and its handler is then
dispatched on every subsequent tick (a busy loop), for any tick count that
does not wrap. -/
theorem C3_amended_zero_interval_accepted (s : TaskScheduler) (hId n : Nat)
    (hov : s.tick_count + n + 1 < U64) :
    (s.schedule_repeating 0 hId).tasks
        = s.tasks ++ [⟨ScheduledTaskType.Timer 0 s.tick_count, hId, false⟩]
      ∧ Effect.spawnRun hId ∈ (s.schedule_repeating 0 hId).effectsAt n := by
  have hmod : (s.tick_count + 0) % U64 = s.tick_count := by
    rw [Nat.add_zero]
    exact Nat.mod_eq_of_lt (by omega)
  constructor
  · show s.tasks
        ++ [⟨ScheduledTaskType.Timer 0 ((s.tick_count + 0) % U64), hId, false⟩]
      = _
    rw [hmod]
  · show Effect.spawnRun hId ∈ TaskScheduler.effectsAt
      ⟨s.tasks
         ++ [⟨ScheduledTaskType.Timer 0 ((s.tick_count + 0) % U64), hId, false⟩],
       s.tick_count⟩ n
    rw [hmod, effectsAt_append,
      timer_zero_singleton_effects s.tick_count hId n (by omega)]
    simp

/-- C3 amended, witness: with interval 0 and handler 7 on a fresh
scheduler, the task is inserted and the 4th tick (like every tick)
dispatches it. -/
theorem C3_amended_witness :
    (TaskScheduler.schedule_repeating ⟨[], 0⟩ 0 7).tasks
        = [] ++ [⟨ScheduledTaskType.Timer 0 0, 7, false⟩]
      ∧ Effect.spawnRun 7 ∈ (TaskScheduler.schedule_repeating ⟨[], 0⟩ 0 7).effectsAt 3 :=
  C3_amended_zero_interval_accepted ⟨[], 0⟩ 7 3 (by decide)

/-- C5: at a send_cancellable call site, after fire returns, the after
block runs iff an after block is present and the returned event's cancelled
flag is false, the cancelled block runs iff a cancelled block is present
and the flag is true, and when both blocks are given exactly one of the two
runs. -/
theorem C5_send_cancellable_blocks (b : CancellableBlocks) (c : Bool) :
    ((send_cancellable b c).runs_after = (b.hasAfter && !c))
      ∧ ((send_cancellable b c).runs_cancelled = (b.hasCancelled && c))
      ∧ (((send_cancellable CancellableBlocks.both c).runs_after
            != (send_cancellable CancellableBlocks.both c).runs_cancelled)
          = true) := by
  cases b <;> cases c <;> exact ⟨rfl, rfl, rfl⟩

/-- C7 counterexample: after one tick (counter = 1), schedule_once with
delay_ticks = 2^64 - 1 wraps the u64 addition: the stored run_at_tick is 0,
strictly below the tick (1) at which the task was scheduled, so the
invariant claimed for u64 arithmetic fails. -/
theorem C7_counterexample :
    (TaskScheduler.schedule_once (TaskScheduler.tick ⟨[], 0⟩).1 (U64 - 1) 7).tasks
        = [⟨ScheduledTaskType.Later 0, 7, false⟩]
      ∧ (TaskScheduler.schedule_once (TaskScheduler.tick ⟨[], 0⟩).1 (U64 - 1) 7).tick_count
          = 1
      ∧ 0 < 1 :=
  ⟨rfl, rfl, Nat.zero_lt_one⟩

/-- C7 amended: the due tick of a newly scheduled task
(schedule_once / schedule_repeating) and the rewritten next_run_tick of a
dispatched Timer task are at least the tick counter value at the moment of
(re)scheduling, provided the u64 addition does not overflow. -/
theorem C7_amended_due_tick_ge :
    (∀ s : TaskScheduler, ∀ d hId : Nat, s.tick_count + d < U64 →
        (s.schedule_once d hId).tasks
            = s.tasks ++ [⟨ScheduledTaskType.Later (s.tick_count + d), hId, false⟩]
          ∧ s.tick_count ≤ s.tick_count + d)
      ∧ (∀ s : TaskScheduler, ∀ i hId : Nat, s.tick_count + i < U64 →
          (s.schedule_repeating i hId).tasks
              = s.tasks ++ [⟨ScheduledTaskType.Timer i (s.tick_count + i), hId, false⟩]
            ∧ s.tick_count ≤ s.tick_count + i)
      ∧ (∀ c i nxt hId : Nat, c + i < U64 → nxt ≤ c →
          tickTask c ⟨ScheduledTaskType.Timer i nxt, hId, false⟩
              = (some ⟨ScheduledTaskType.Timer i (c + i), hId, false⟩,
                 [Effect.spawnRun hId])
            ∧ c ≤ c + i) := by
  refine ⟨?_, ?_, ?_⟩
  · intro s d hId hov
    refine ⟨?_, Nat.le_add_right _ _⟩
    show s.tasks
        ++ [⟨ScheduledTaskType.Later ((s.tick_count + d) % U64), hId, false⟩]
      = _
    rw [Nat.mod_eq_of_lt hov]
  · intro s i hId hov
    refine ⟨?_, Nat.le_add_right _ _⟩
    show s.tasks
        ++ [⟨ScheduledTaskType.Timer i ((s.tick_count + i) % U64), hId, false⟩]
      = _
    rw [Nat.mod_eq_of_lt hov]
  · intro c i nxt hId hov hdue
    refine ⟨?_, Nat.le_add_right _ _⟩
    simp [tickTask, hdue, Nat.mod_eq_of_lt hov]

/-- C7 amended, witness: scheduling delay 3 at tick 5 stores run_at_tick 8,
at least the scheduling tick 5. -/
theorem C7_amended_witness :
    (TaskScheduler.schedule_once ⟨[], 5⟩ 3 7).tasks
        = [] ++ [⟨ScheduledTaskType.Later 8, 7, false⟩]
      ∧ (5 : Nat) ≤ 8 :=
  C7_amended_due_tick_ge.1 ⟨[], 5⟩ 3 7 (by decide)

set_option maxHeartbeats 2000000 in
/-- C2: a repeating task with interval i > 0 and fresh handler, scheduled
at tick t0 = s.tick_count, is dispatched exactly on the ticks t0 + i,
t0 + 2i, ...: the (n+1)-st tick() call spawns its run() iff i divides
n + 1; after n + 1 ticks the task is still pending with next_run_tick =
t0 + i * ((n+1)/i) + i, and on a dispatching tick that value equals
current_tick + i — advanced from the current tick, not compounded from the
previous due tick. -/
theorem C2_schedule_repeating_dispatch (s : TaskScheduler) (i hId n : Nat)
    (hi : 0 < i) (hf : ∀ t ∈ s.tasks, t.handler ≠ hId)
    (hov : s.tick_count + (n + 1) + i < U64) :
    (Effect.spawnRun hId ∈ (s.schedule_repeating i hId).effectsAt n
        ↔ i ∣ (n + 1))
      ∧ (TaskScheduler.tickN (s.schedule_repeating i hId) (n + 1)).tasks
          = (TaskScheduler.tickN ⟨s.tasks, s.tick_count⟩ (n + 1)).tasks
              ++ [⟨ScheduledTaskType.Timer i
                    (s.tick_count + i * ((n + 1) / i) + i), hId, false⟩]
      ∧ (i ∣ (n + 1) →
          s.tick_count + i * ((n + 1) / i) + i
            = (s.tick_count + (n + 1)) + i) := by
  have hmod : (s.tick_count + i) % U64 = s.tick_count + i :=
    Nat.mod_eq_of_lt (by omega)
  refine ⟨?_, ?_, ?_⟩
  · show Effect.spawnRun hId ∈ TaskScheduler.effectsAt
        ⟨s.tasks
           ++ [⟨ScheduledTaskType.Timer i ((s.tick_count + i) % U64), hId, false⟩],
         s.tick_count⟩ n ↔ _
    rw [hmod, effectsAt_append,
      timer_singleton_effects s.tick_count i hId hi n (by omega)]
    have hfe := (fresh_effectsAt ⟨s.tasks, s.tick_count⟩ hId n hf).1
    by_cases hd : i ∣ (n + 1) <;> simp [List.mem_append, hfe, hd]
  · show (TaskScheduler.tickN
        ⟨s.tasks
           ++ [⟨ScheduledTaskType.Timer i ((s.tick_count + i) % U64), hId, false⟩],
         s.tick_count⟩ (n + 1)).tasks = _
    rw [hmod, tickN_tasks_append,
      timer_singleton s.tick_count i hId hi (n + 1) (by omega)]
  · intro hd
    have := Nat.mul_div_cancel' hd
    omega

/-- C2 witness: interval 5, handler 1, fresh scheduler: the 5th tick() call
dispatches the handler (5 divides 5), after 5 ticks the next due tick is
10, and 10 = (0 + 5) + 5 is current tick plus the interval. -/
theorem C2_witness :
    (Effect.spawnRun 1 ∈ (TaskScheduler.schedule_repeating ⟨[], 0⟩ 5 1).effectsAt 4
        ↔ (5 : Nat) ∣ 5)
      ∧ (TaskScheduler.tickN (TaskScheduler.schedule_repeating ⟨[], 0⟩ 5 1) 5).tasks
          = (TaskScheduler.tickN ⟨[], 0⟩ 5).tasks
              ++ [⟨ScheduledTaskType.Timer 5 (0 + 5 * (5 / 5) + 5), 1, false⟩]
      ∧ ((5 : Nat) ∣ 5 → 0 + 5 * (5 / 5) + 5 = (0 + 5) + 5) :=
  C2_schedule_repeating_dispatch ⟨[], 0⟩ 5 1 4 (by decide) (by simp) (by decide)

theorem set_append_length (pre post : List ScheduledTask)
    (a b : ScheduledTask) :
    (pre ++ a :: post).set pre.length b = pre ++ b :: post := by
  induction pre with
  | nil => rfl
  | cons x xs ih => simp [List.set, ih]

/-- Effects of one tick over tasks that never mention handler hId contain
no spawnCancel for hId. -/
theorem flatMap_count_cancel_fresh (c hId : Nat) (l : List ScheduledTask)
    (hf : ∀ t ∈ l, t.handler ≠ hId) :
    (l.flatMap (fun tk => (tickTask c tk).2)).count (Effect.spawnCancel hId)
      = 0 := by
  rw [List.count_eq_zero]
  intro hmem
  obtain ⟨t, ht, hmem⟩ := List.mem_flatMap.mp hmem
  rcases tickTask_effect_mem _ _ _ hmem with he | he
  · exact Effect.noConfusion he
  · exact hf t ht (Effect.spawnCancel.inj he).symm

/-- Effects of one tick over a task list in which exactly the marked task
carries handler hId (its cancel flag set) contain exactly one spawnCancel
for hId. -/
theorem flatMap_count_cancel_unique (c hId : Nat)
    (pre post : List ScheduledTask) (tsk' : ScheduledTask)
    (h1 : tsk'.handler = hId) (h2 : tsk'.cancel_flag = true)
    (hfpre : ∀ t ∈ pre, t.handler ≠ hId)
    (hfpost : ∀ t ∈ post, t.handler ≠ hId) :
    ((pre ++ tsk' :: post).flatMap (fun tk => (tickTask c tk).2)).count
      (Effect.spawnCancel hId) = 1 := by
  rw [List.flatMap_append, List.flatMap_cons, List.count_append,
    List.count_append, flatMap_count_cancel_fresh c hId pre hfpre,
    flatMap_count_cancel_fresh c hId post hfpost,
    tickTask_cancelled c tsk' h2, h1]
  simp

/-- C4: a pending task whose cancel flag is set (before it was ever
dispatched) is handled by the next tick() call as follows: its handler's
cancel() is spawned, its run() is not, the task is removed from the pending
set (no pending task carries its handler any more), and no later tick()
call ever spawns its run() — in particular no occurrence of a repeating
task due at or after that tick is dispatched. -/
theorem C4_cancelled_before_dispatch (s : TaskScheduler)
    (pre post : List ScheduledTask) (tsk : ScheduledTask)
    (hTasks : s.tasks = pre ++ tsk :: post)
    (hFlag : tsk.cancel_flag = true)
    (hFresh : ∀ t ∈ pre ++ post, t.handler ≠ tsk.handler) :
    Effect.spawnCancel tsk.handler ∈ (s.tick).2
      ∧ Effect.spawnRun tsk.handler ∉ (s.tick).2
      ∧ (∀ t ∈ (s.tick).1.tasks, t.handler ≠ tsk.handler)
      ∧ ∀ n, Effect.spawnRun tsk.handler ∉ (s.tick).1.effectsAt n := by
  have hc := tickTask_cancelled ((s.tick_count + 1) % U64) tsk hFlag
  have hremoved : ∀ t ∈ (s.tick).1.tasks, t.handler ≠ tsk.handler := by
    intro t' ht'
    rw [tick_fst_tasks, hTasks] at ht'
    obtain ⟨t, ht, htt⟩ := List.mem_filterMap.mp ht'
    rw [tickTask_handler_eq _ _ _ htt]
    rcases List.mem_append.mp ht with hpre | hrest
    · exact hFresh t (List.mem_append.mpr (Or.inl hpre))
    · rcases List.mem_cons.mp hrest with heq | hpost
      · subst heq
        rw [hc] at htt
        exact Option.noConfusion htt
      · exact hFresh t (List.mem_append.mpr (Or.inr hpost))
  refine ⟨?_, ?_, hremoved, ?_⟩
  · rw [tick_snd, hTasks]
    refine List.mem_flatMap.mpr ⟨tsk, by simp, ?_⟩
    rw [hc]
    simp
  · intro hmem
    rw [tick_snd, hTasks] at hmem
    obtain ⟨t, ht, hmem⟩ := List.mem_flatMap.mp hmem
    rcases List.mem_append.mp ht with hpre | hrest
    · rcases tickTask_effect_mem _ _ _ hmem with he | he
      · exact hFresh t (List.mem_append.mpr (Or.inl hpre))
          (Effect.spawnRun.inj he).symm
      · exact Effect.noConfusion he
    · rcases List.mem_cons.mp hrest with heq | hpost
      · subst heq
        rw [hc] at hmem
        simp at hmem
      · rcases tickTask_effect_mem _ _ _ hmem with he | he
        · exact hFresh t (List.mem_append.mpr (Or.inr hpost))
            (Effect.spawnRun.inj he).symm
        · exact Effect.noConfusion he
  · intro n
    exact (fresh_effectsAt (s.tick).1 tsk.handler n hremoved).1

/-- C4 witness: a single repeating task (interval 3, next due 5, handler 9)
with its cancel flag set: the first tick spawns its cancel(), not its
run(), and the 8th tick still does not spawn its run(). -/
theorem C4_witness :
    Effect.spawnCancel 9
        ∈ (TaskScheduler.tick ⟨[⟨ScheduledTaskType.Timer 3 5, 9, true⟩], 0⟩).2
      ∧ Effect.spawnRun 9
          ∉ (TaskScheduler.tick ⟨[⟨ScheduledTaskType.Timer 3 5, 9, true⟩], 0⟩).2
      ∧ Effect.spawnRun 9
          ∉ (TaskScheduler.tick ⟨[⟨ScheduledTaskType.Timer 3 5, 9, true⟩], 0⟩).1.effectsAt 7 :=
  ⟨(C4_cancelled_before_dispatch ⟨[⟨ScheduledTaskType.Timer 3 5, 9, true⟩], 0⟩
      [] [] ⟨ScheduledTaskType.Timer 3 5, 9, true⟩ rfl rfl (by simp)).1,
   (C4_cancelled_before_dispatch ⟨[⟨ScheduledTaskType.Timer 3 5, 9, true⟩], 0⟩
      [] [] ⟨ScheduledTaskType.Timer 3 5, 9, true⟩ rfl rfl (by simp)).2.1,
   (C4_cancelled_before_dispatch ⟨[⟨ScheduledTaskType.Timer 3 5, 9, true⟩], 0⟩
      [] [] ⟨ScheduledTaskType.Timer 3 5, 9, true⟩ rfl rfl (by simp)).2.2.2 7⟩

/-- C8: for a pending, not yet cancelled task with a unique handler,
calling the ScheduledHandle's cancel() and then letting the next tick()
observe the flag invokes the handler's cancel() twice in total: once
directly by ScheduledHandle::cancel, and once more by the tick that removes
the task. -/
theorem C8_handle_cancel_runs_cancel_twice (s : TaskScheduler)
    (pre post : List ScheduledTask) (tsk : ScheduledTask)
    (hTasks : s.tasks = pre ++ tsk :: post)
    (_hFlag : tsk.cancel_flag = false)
    (hFresh : ∀ t ∈ pre ++ post, t.handler ≠ tsk.handler) :
    ((s.scheduledHandle_cancel pre.length).2
        ++ (TaskScheduler.tick (s.scheduledHandle_cancel pre.length).1).2).count
      (Effect.spawnCancel tsk.handler) = 2 := by
  have hget : s.tasks[pre.length]? = some tsk := by
    rw [hTasks, List.getElem?_append_right (Nat.le_refl _)]
    simp
  have hset : s.tasks.set pre.length { tsk with cancel_flag := true }
      = pre ++ { tsk with cancel_flag := true } :: post := by
    rw [hTasks]
    exact set_append_length pre post tsk _
  have hcall : s.scheduledHandle_cancel pre.length
      = (⟨pre ++ { tsk with cancel_flag := true } :: post, s.tick_count⟩,
         [Effect.spawnCancel tsk.handler]) := by
    simp only [TaskScheduler.scheduledHandle_cancel, hget, hset]
  rw [hcall, List.count_append, tick_snd,
    flatMap_count_cancel_unique _ tsk.handler pre post
      { tsk with cancel_flag := true } rfl rfl
      (fun t ht => hFresh t (List.mem_append.mpr (Or.inl ht)))
      (fun t ht => hFresh t (List.mem_append.mpr (Or.inr ht)))]
  simp

/-- C8 witness: one pending once-task (due 5, handler 4, flag clear):
handle cancel plus the next tick spawn its handler's cancel() twice. -/
theorem C8_witness :
    ((TaskScheduler.scheduledHandle_cancel
          ⟨[⟨ScheduledTaskType.Later 5, 4, false⟩], 0⟩ 0).2
        ++ (TaskScheduler.tick (TaskScheduler.scheduledHandle_cancel
              ⟨[⟨ScheduledTaskType.Later 5, 4, false⟩], 0⟩ 0).1).2).count
      (Effect.spawnCancel 4) = 2 :=
  C8_handle_cancel_runs_cancel_twice ⟨[⟨ScheduledTaskType.Later 5, 4, false⟩], 0⟩
    [] [] ⟨ScheduledTaskType.Later 5, 4, false⟩ rfl rfl (by simp)

/-- C9: NamespacedKey::new returns an error iff the namespace or the key
contains a non-ASCII character — NonAsciiNamespace when the namespace is
non-ASCII (that check runs first), NonAsciiKey when the namespace is ASCII
but the key is not — and on success it stores the ASCII-lowercased
namespace and key. -/
theorem C9_namespaced_key_new (ns key : List Char) :
    (NamespacedKey.new ns key
          = Except.error NamespacedKeyError.NonAsciiNamespace
        ↔ str_is_ascii ns = false)
      ∧ (NamespacedKey.new ns key = Except.error NamespacedKeyError.NonAsciiKey
          ↔ (str_is_ascii ns = true ∧ str_is_ascii key = false))
      ∧ ((∃ e, NamespacedKey.new ns key = Except.error e)
          ↔ (str_is_ascii ns = false ∨ str_is_ascii key = false))
      ∧ (str_is_ascii ns = true → str_is_ascii key = true →
          NamespacedKey.new ns key
            = Except.ok
                ⟨str_to_ascii_lowercase ns, str_to_ascii_lowercase key⟩) := by
  cases hns : str_is_ascii ns <;> cases hk : str_is_ascii key <;>
    simp [NamespacedKey.new, hns, hk]

/-- C9 witness: the namespace "Ab" and key "C" are ASCII, and the
constructor succeeds with both parts lowercased. -/
theorem C9_witness :
    str_is_ascii ['A', 'b'] = true
      ∧ str_is_ascii ['C'] = true
      ∧ NamespacedKey.new ['A', 'b'] ['C']
          = Except.ok
              ⟨str_to_ascii_lowercase ['A', 'b'], str_to_ascii_lowercase ['C']⟩ :=
  ⟨by decide, by decide,
   (C9_namespaced_key_new ['A', 'b'] ['C']).2.2.2 (by decide) (by decide)⟩

theorem insertIdx_getElem?_lt {α : Type} (x : α) :
    ∀ (l : List α) (i j : Nat), j < i → (l.insertIdx i x)[j]? = l[j]? := by
  intro l
  induction l with
  | nil =>
      intro i j hj
      cases i with
      | zero => omega
      | succ n => rw [List.insertIdx_succ_nil]
  | cons a as ih =>
      intro i j hj
      cases i with
      | zero => omega
      | succ n =>
          rw [List.insertIdx_succ_cons]
          cases j with
          | zero => simp
          | succ k =>
              rw [List.getElem?_cons_succ, List.getElem?_cons_succ]
              exact ih n k (by omega)

theorem insertIdx_getElem?_ge {α : Type} (x : α) :
    ∀ (l : List α) (i j : Nat), i ≤ j → (l.insertIdx i x)[j + 1]? = l[j]? := by
  intro l
  induction l with
  | nil =>
      intro i j hj
      cases i with
      | zero =>
          rw [List.insertIdx_zero, List.getElem?_cons_succ]
      | succ n =>
          rw [List.insertIdx_succ_nil]
          cases j with
          | zero => omega
          | succ k => rfl
  | cons a as ih =>
      intro i j hj
      cases i with
      | zero =>
          rw [List.insertIdx_zero, List.getElem?_cons_succ]
      | succ n =>
          rw [List.insertIdx_succ_cons]
          cases j with
          | zero => omega
          | succ k =>
              rw [List.getElem?_cons_succ, List.getElem?_cons_succ]
              exact ih n k (by omega)

theorem insertIdx_getElem?_self {α : Type} (x : α) :
    ∀ (l : List α) (i : Nat), i ≤ l.length → (l.insertIdx i x)[i]? = some x := by
  intro l
  induction l with
  | nil =>
      intro i hi
      cases i with
      | zero => rfl
      | succ n => simp at hi
  | cons a as ih =>
      intro i hi
      cases i with
      | zero => rfl
      | succ n =>
          rw [List.insertIdx_succ_cons, List.getElem?_cons_succ]
          exact ih n (by simpa using hi)

/-- C10: for any index at most the current number of lines, set_line
inserts the new line at that index and shifts the existing lines at or
after it one position later: the line count grows by one and the old line
at the index is not replaced (it reappears one position later).  Reading a
line at or beyond the number of lines panics (modelled as none). -/
theorem C10_sign_change_set_line (e : SignChangeEvent) (i : Nat) (l : String)
    (hi : i ≤ e.content.length) :
    (e.set_line i l).lines.length = e.lines.length + 1
      ∧ (e.set_line i l).line i = some l
      ∧ (∀ j, j < i → (e.set_line i l).line j = e.line j)
      ∧ (∀ j, i ≤ j → (e.set_line i l).line (j + 1) = e.line j)
      ∧ (∀ j, e.lines.length ≤ j → e.line j = none) := by
  refine ⟨?_, ?_, ?_, ?_, ?_⟩
  · show (e.content.insertIdx i l).length = e.content.length + 1
    exact List.length_insertIdx i e.content hi
  · exact insertIdx_getElem?_self l e.content i hi
  · intro j hj
    exact insertIdx_getElem?_lt l e.content i j hj
  · intro j hj
    exact insertIdx_getElem?_ge l e.content i j hj
  · intro j hj
    exact List.getElem?_eq_none hj

/-- C10 witness: inserting "x" at index 1 of a two-line sign gives three
lines, with the old line 1 shifted to index 2, and reading line 2 of the
original two-line sign panics (none). -/
theorem C10_witness :
    ((SignChangeEvent.new 0 ["a", "b"] Side.Front).set_line 1 "x").lines.length
        = (SignChangeEvent.new 0 ["a", "b"] Side.Front).lines.length + 1
      ∧ ((SignChangeEvent.new 0 ["a", "b"] Side.Front).set_line 1 "x").line 1
          = some "x"
      ∧ ((SignChangeEvent.new 0 ["a", "b"] Side.Front).set_line 1 "x").line 2
          = (SignChangeEvent.new 0 ["a", "b"] Side.Front).line 1
      ∧ (SignChangeEvent.new 0 ["a", "b"] Side.Front).line 2 = none :=
  ⟨(C10_sign_change_set_line (SignChangeEvent.new 0 ["a", "b"] Side.Front) 1 "x"
      (by decide)).1,
   (C10_sign_change_set_line (SignChangeEvent.new 0 ["a", "b"] Side.Front) 1 "x"
      (by decide)).2.1,
   (C10_sign_change_set_line (SignChangeEvent.new 0 ["a", "b"] Side.Front) 1 "x"
      (by decide)).2.2.2.1 1 (Nat.le_refl 1),
   (C10_sign_change_set_line (SignChangeEvent.new 0 ["a", "b"] Side.Front) 1 "x"
      (by decide)).2.2.2.2 2 (by decide)⟩

end Pumpkin
